import Mathlib

/-!
Verification development for `mfr3dcore/models/analytical/base.py`
(base class for analytical flux rope models).

The Python module is shallowly embedded:
* 3-component numpy vectors become the structure `Vec3`;
* 4-component Euler-Rodrigues coefficient arrays become `ER4`;
* float arithmetic is idealised as exact arithmetic (polymorphic over a
  commutative ring where possible, `ℝ` where `cos`/`sin` are needed);
* the class `AnalyticalFluxRopeModel` becomes a structure holding the same
  fields, its methods become functions in its namespace;
* `scipy.optimize.least_squares` is an external library call and is
  modelled as an abstract solver parameter `ls`; theorems about the
  numerically approximated inverse hypothesise only the argmin property
  the solver is documented to provide.
-/

/-- A 3-component vector (a 1-dimensional numpy array of length 3). -/
@[ext]
structure Vec3 (α : Type) where
  x : α
  y : α
  z : α
deriving DecidableEq, Repr

/-- A 4-component Euler-Rodrigues coefficient array
`[era, erb, erc, erd]` (scalar part first). -/
@[ext]
structure ER4 (α : Type) where
  a : α
  b : α
  c : α
  d : α
deriving DecidableEq, Repr

variable {α : Type} [CommRing α]

/-- Source `er_compose(er1, er2)` (base.py lines 220-239): componentwise
composition rule of two Euler-Rodrigues coefficient arrays, transcribed
term by term. -/
def er_compose (er1 er2 : ER4 α) : ER4 α :=
  { a := er1.a * er2.a - er1.b * er2.b - er1.c * er2.c - er1.d * er2.d
    b := er1.a * er2.b + er1.b * er2.a - er1.c * er2.d + er1.d * er2.c
    c := er1.a * er2.c + er1.c * er2.a - er1.d * er2.b + er1.b * er2.d
    d := er1.a * er2.d + er1.d * er2.a - er1.b * er2.c + er1.c * er2.b }

/-- Source `er_rot(v, er)` (base.py lines 269-298): the 3x3 matrix built
from the coefficients, applied to `v` (`np.dot(m, v)`), transcribed entry
by entry. -/
def er_rot (v : Vec3 α) (er : ER4 α) : Vec3 α :=
  { x := (er.a ^ 2 + er.b ^ 2 - er.c ^ 2 - er.d ^ 2) * v.x
         + 2 * (er.b * er.c - er.a * er.d) * v.y
         + 2 * (er.b * er.d + er.a * er.c) * v.z
    y := 2 * (er.b * er.c + er.a * er.d) * v.x
         + (er.a ^ 2 + er.c ^ 2 - er.b ^ 2 - er.d ^ 2) * v.y
         + 2 * (er.c * er.d - er.a * er.b) * v.z
    z := 2 * (er.b * er.d - er.a * er.c) * v.x
         + 2 * (er.c * er.d + er.a * er.b) * v.y
         + (er.a ^ 2 + er.d ^ 2 - er.b ^ 2 - er.c ^ 2) * v.z }

/-- Conjugate of a coefficient array: keep the scalar part, negate the
three vector parts (the rule base.py lines 197-203 applies literally). -/
def er_conj (er : ER4 α) : ER4 α :=
  { a := er.a, b := -er.b, c := -er.c, d := -er.d }

/-- Identity coefficient array `(1, 0, 0, 0)`. -/
def er_id : ER4 α := { a := 1, b := 0, c := 0, d := 0 }

/-- Zero 3-vector, as produced by `np.array([0, 0, 0])` in base.py line 137. -/
def zeroVec : Vec3 α := { x := 0, y := 0, z := 0 }

/-- Squared euclidean norm of a 3-vector. -/
def sqNorm3 (v : Vec3 α) : α := v.x ^ 2 + v.y ^ 2 + v.z ^ 2

/-- Squared euclidean norm of a coefficient array. -/
def sqNorm4 (er : ER4 α) : α := er.a ^ 2 + er.b ^ 2 + er.c ^ 2 + er.d ^ 2

/-- Source `er_get(a, v)` (base.py lines 245-263): coefficients of the
rotation by `a` degrees about axis `v`; `np.radians(a / 2)` is
`a / 2 * (π / 180)`. -/
noncomputable def er_get (a : ℝ) (v : Vec3 ℝ) : ER4 ℝ :=
  let arg := a / 2 * (Real.pi / 180)
  { a := Real.cos arg
    b := v.x * Real.sin arg
    c := v.y * Real.sin arg
    d := v.z * Real.sin arg }

/- Algebraic facts about the rotation core, used by several claims. -/

lemma sqNorm4_er_compose (e1 e2 : ER4 α) :
    sqNorm4 (er_compose e1 e2) = sqNorm4 e1 * sqNorm4 e2 := by
  simp only [sqNorm4, er_compose]
  ring

lemma sqNorm3_er_rot (v : Vec3 α) (er : ER4 α) :
    sqNorm3 (er_rot v er) = sqNorm4 er ^ 2 * sqNorm3 v := by
  simp only [sqNorm3, sqNorm4, er_rot]
  ring

lemma er_compose_conj_right (er : ER4 α) :
    er_compose er (er_conj er) = { a := sqNorm4 er, b := 0, c := 0, d := 0 } := by
  simp only [er_compose, er_conj, sqNorm4]
  ext <;> dsimp <;> ring

lemma er_compose_conj_left (er : ER4 α) :
    er_compose (er_conj er) er = { a := sqNorm4 er, b := 0, c := 0, d := 0 } := by
  simp only [er_compose, er_conj, sqNorm4]
  ext <;> dsimp <;> ring

lemma er_rot_er_rot (v : Vec3 α) (e1 e2 : ER4 α) :
    er_rot (er_rot v e1) e2 = er_rot v (er_compose e1 e2) := by
  simp only [er_rot, er_compose]
  ext <;> dsimp <;> ring

lemma er_rot_scalar (v : Vec3 α) (n : α) :
    er_rot v { a := n, b := 0, c := 0, d := 0 } =
      { x := n ^ 2 * v.x, y := n ^ 2 * v.y, z := n ^ 2 * v.z } := by
  simp only [er_rot]
  ext <;> dsimp <;> ring

lemma sqNorm4_er_get (a : ℝ) (v : Vec3 ℝ) (hv : sqNorm3 v = 1) :
    sqNorm4 (er_get a v) = 1 := by
  have hs := Real.sin_sq_add_cos_sq (a / 2 * (Real.pi / 180))
  simp only [sqNorm3] at hv
  simp only [sqNorm4, er_get]
  linear_combination (Real.sin (a / 2 * (Real.pi / 180))) ^ 2 * hv + hs

/-!
Inputs of `transform_into` / `transform_from`. The Python dispatch at
base.py lines 156-160 / 172-176 branches on the argument's *type*:
a Python `list`, or a numpy array with `ndim > 1`, is iterated and
recursed on element by element; everything else (a 1-dimensional array —
or a bare scalar, should one ever appear inside a flat list) falls into
the single-point branch.
-/

/-- An argument to the transform methods: a bare scalar, a 1-dimensional
array holding one point, an `ndim > 1` numpy array (sequence of
subarrays), or a Python list of further arguments. -/
inductive PyInput (α : Type) where
  | scalar : α → PyInput α
  | ndarray1 : Vec3 α → PyInput α
  | ndarrayN : List (PyInput α) → PyInput α
  | pyList : List (PyInput α) → PyInput α

/-- A result of the transform methods: a single transformed point, or a
stacked array (`np.array([...])` over the recursive results). `stuck`
marks the value the single-point branch produces when handed a bare
scalar: numpy then broadcasts the rotation matrix against the scalar and
feeds a 3x3 array to `f`, a shape-invalid computation that the vector
data model cannot represent; it is kept opaque and tagged with the
offending scalar. -/
inductive NDArray (α : Type) where
  | vec : Vec3 α → NDArray α
  | stack : List (NDArray α) → NDArray α
  | stuck : α → NDArray α

/-- Shallow embedding of the Python class `AnalyticalFluxRopeModel`
(base.py lines 43-213).  The `datetime` fields are modelled as scalars;
the state tuple (`state = tuple()`, unpacked as `*self.state` at every
capability call) is a `List α`; the capabilities `f`, `g`, `h` take the
point and the state list; `jac` is stored but never used internally
(base.py line 89); `f_appr` holds `f0` when the numerical fallback is
constructed, `none` otherwise (class attribute default `None`). -/
structure AnalyticalFluxRopeModel (α : Type) where
  t0 : α
  tt : α
  lon : α
  lat : α
  inc : α
  f : Vec3 α → List α → Vec3 α
  f_appr : Option (Vec3 α → List α → Vec3 α)
  g : Vec3 α → List α → Vec3 α
  jac : Vec3 α → List α → List (List α)
  h : Vec3 α → List α → Vec3 α
  state : List α
  er_coeff_from : ER4 α
  er_coeff_into : ER4 α

namespace AnalyticalFluxRopeModel

/-- Single-point branch of `transform_into` (base.py line 160):
`self.f(er_rot(x, self.er_coeff_into), *self.state)`. -/
def transform_into_point (M : AnalyticalFluxRopeModel α) (x : Vec3 α) : Vec3 α :=
  M.f (er_rot x M.er_coeff_into) M.state

/-- Single-point branch of `transform_from` (base.py line 176):
`er_rot(self.g(q, *self.state), self.er_coeff_from)`. -/
def transform_from_point (M : AnalyticalFluxRopeModel α) (q : Vec3 α) : Vec3 α :=
  er_rot (M.g q M.state) M.er_coeff_from

mutual

/-- Source `transform_into` (base.py lines 146-160). A list, or an array
of `ndim > 1`, is mapped element by element through a recursive call and
restacked; a 1-dimensional array takes the single-point branch; a bare
scalar also reaches the single-point branch, where the numpy expression
is shape-invalid (`stuck`). -/
def transform_into (M : AnalyticalFluxRopeModel α) : PyInput α → NDArray α
  | .pyList xs => .stack (transform_into_list M xs)
  | .ndarrayN xs => .stack (transform_into_list M xs)
  | .ndarray1 x => .vec (transform_into_point M x)
  | .scalar a => .stuck a

/-- The list comprehension `[self.transform_into(_v) for _v in x]`. -/
def transform_into_list (M : AnalyticalFluxRopeModel α) : List (PyInput α) → List (NDArray α)
  | [] => []
  | x :: xs => transform_into M x :: transform_into_list M xs

end

mutual

/-- Source `transform_from` (base.py lines 162-176), same dispatch as
`transform_into`. -/
def transform_from (M : AnalyticalFluxRopeModel α) : PyInput α → NDArray α
  | .pyList qs => .stack (transform_from_list M qs)
  | .ndarrayN qs => .stack (transform_from_list M qs)
  | .ndarray1 q => .vec (transform_from_point M q)
  | .scalar a => .stuck a

/-- The list comprehension `[self.transform_from(_v) for _v in q]`. -/
def transform_from_list (M : AnalyticalFluxRopeModel α) : List (PyInput α) → List (NDArray α)
  | [] => []
  | q :: qs => transform_from M q :: transform_from_list M qs

end

/-- Source `magnetic_field` (base.py lines 119-143) for a single query
point (a 1-dimensional array, which `transform_into` sends through its
single-point branch). `collision: Callable = None` becomes an `Option`;
`if collision:` is the `some`/`none` match (a callable is always
truthy). -/
def magnetic_field (M : AnalyticalFluxRopeModel α) (v : Vec3 α)
    (collision : Option (Vec3 α → List α → Bool)) : Vec3 α × Bool :=
  let v' := transform_into_point M v
  match collision with
  | some coll =>
    if coll v' M.state then
      (er_rot (M.h v' M.state) M.er_coeff_from, true)
    else
      (zeroVec, false)
  | none =>
    (er_rot (M.h v' M.state) M.er_coeff_from, true)

/-- Source `update_er_coefficients` (base.py lines 178-203): derive the
forward coefficients from `lon`, `lat`, `inc` in the fixed order
`c1`, `c2`, `c3`, then set the inverse coefficients to the componentwise
conjugate (the explicit 4-entry array of lines 197-203). -/
noncomputable def update_er_coefficients (M : AnalyticalFluxRopeModel ℝ) :
    AnalyticalFluxRopeModel ℝ :=
  let ux : Vec3 ℝ := { x := 1, y := 0, z := 0 }
  let uy : Vec3 ℝ := { x := 0, y := 1, z := 0 }
  let uz : Vec3 ℝ := { x := 0, y := 0, z := 1 }
  let c1 := er_get M.lon uz
  let c2 := er_get (-M.lat) (er_rot uy c1)
  let c3 := er_get M.inc (er_rot ux (er_compose c1 c2))
  let coeff_from := er_compose (er_compose c1 c2) c3
  { M with
    er_coeff_from := coeff_from
    er_coeff_into :=
      { a := coeff_from.a, b := -coeff_from.b, c := -coeff_from.c, d := -coeff_from.d } }

/-- The lambda of base.py lines 103-105:
`lambda v, *args: spopt.least_squares(self.g, self.f_appr(v, *args)).x`.
`ls` stands for `scipy.optimize.least_squares` composed with `.x`.  Note
that the residual handed to the solver is `self.g` itself — called by the
solver with the iterate alone, i.e. `g(q)` with an empty state and with
no offset by the target `v`; `v` enters only through the initial guess
`f_appr(v, *args)`. -/
def numerical_f (ls : (Vec3 α → Vec3 α) → Vec3 α → Vec3 α)
    (g f0 : Vec3 α → List α → Vec3 α) : Vec3 α → List α → Vec3 α :=
  fun v args => ls (fun q => g q []) (f0 v args)

/-- Source `__init__` (base.py lines 55-107). The three branches mirror
`if f is None and f0 is None: raise ValueError(...)`, `if f: self.f = f`,
and the `else` branch that stores `f_appr = f0` and the `numerical_f`
lambda.  Class-attribute placeholders (`er_coeff_from, er_coeff_into =
None, None`, `state = tuple()`) are represented by `er_id` and `[]`; the
coefficient placeholders are overwritten by the final
`self.update_er_coefficients()` before they can be read. -/
noncomputable def init (ls : (Vec3 ℝ → Vec3 ℝ) → Vec3 ℝ → Vec3 ℝ)
    (time longitude latitude inclination : ℝ)
    (g : Vec3 ℝ → List ℝ → Vec3 ℝ) (jac : Vec3 ℝ → List ℝ → List (List ℝ))
    (h : Vec3 ℝ → List ℝ → Vec3 ℝ)
    (f f0 : Option (Vec3 ℝ → List ℝ → Vec3 ℝ)) :
    Except String (AnalyticalFluxRopeModel ℝ) :=
  match f, f0 with
  | none, none =>
    .error "inverse transform f or its approximation f_appr must be given"
  | some f, _ =>
    .ok (update_er_coefficients
      { t0 := time, tt := time, lon := longitude, lat := latitude, inc := inclination
        f := f, f_appr := none, g := g, jac := jac, h := h, state := []
        er_coeff_from := er_id, er_coeff_into := er_id })
  | none, some f0 =>
    .ok (update_er_coefficients
      { t0 := time, tt := time, lon := longitude, lat := latitude, inc := inclination
        f := numerical_f ls g f0, f_appr := some f0, g := g, jac := jac, h := h
        state := [], er_coeff_from := er_id, er_coeff_into := er_id })

/-- Method-call views of the three read-only methods: each returns the
object state after the call next to the method's value.  The Python
bodies of `transform_into`, `transform_from` and `magnetic_field` read
attributes but contain no assignment to `self`, so the post-call object
is the pre-call object. -/
def transform_into_call (M : AnalyticalFluxRopeModel α) (x : PyInput α) :
    AnalyticalFluxRopeModel α × NDArray α :=
  (M, transform_into M x)

/-- Method-call view of `transform_from`; see `transform_into_call`. -/
def transform_from_call (M : AnalyticalFluxRopeModel α) (q : PyInput α) :
    AnalyticalFluxRopeModel α × NDArray α :=
  (M, transform_from M q)

/-- Method-call view of `magnetic_field`; see `transform_into_call`. -/
def magnetic_field_call (M : AnalyticalFluxRopeModel α) (v : Vec3 α)
    (collision : Option (Vec3 α → List α → Bool)) :
    AnalyticalFluxRopeModel α × (Vec3 α × Bool) :=
  (M, magnetic_field M v collision)

end AnalyticalFluxRopeModel

namespace AnalyticalFluxRopeModel

lemma update_er_coefficients_from_eq (M : AnalyticalFluxRopeModel ℝ) :
    (update_er_coefficients M).er_coeff_from =
      er_compose
        (er_compose (er_get M.lon { x := 0, y := 0, z := 1 })
          (er_get (-M.lat)
            (er_rot { x := 0, y := 1, z := 0 } (er_get M.lon { x := 0, y := 0, z := 1 }))))
        (er_get M.inc
          (er_rot { x := 1, y := 0, z := 0 }
            (er_compose (er_get M.lon { x := 0, y := 0, z := 1 })
              (er_get (-M.lat)
                (er_rot { x := 0, y := 1, z := 0 }
                  (er_get M.lon { x := 0, y := 0, z := 1 })))))) := rfl

lemma update_er_coefficients_into_eq (M : AnalyticalFluxRopeModel ℝ) :
    (update_er_coefficients M).er_coeff_into =
      er_conj (update_er_coefficients M).er_coeff_from := rfl

/-- The forward coefficients derived by `update_er_coefficients` have
unit norm: every `er_get` factor does (its axis is a unit vector, rotated
by unit coefficients), and composition multiplies norms. -/
lemma sqNorm4_update_er_coefficients_from (M : AnalyticalFluxRopeModel ℝ) :
    sqNorm4 (update_er_coefficients M).er_coeff_from = 1 := by
  have h1 : sqNorm4 (er_get M.lon { x := 0, y := 0, z := 1 }) = 1 := by
    refine sqNorm4_er_get _ _ ?_
    simp [sqNorm3]
  have h2 : sqNorm4
      (er_get (-M.lat)
        (er_rot { x := 0, y := 1, z := 0 } (er_get M.lon { x := 0, y := 0, z := 1 }))) = 1 := by
    refine sqNorm4_er_get _ _ ?_
    rw [sqNorm3_er_rot, h1]
    simp [sqNorm3]
  have h3 : sqNorm4
      (er_get M.inc
        (er_rot { x := 1, y := 0, z := 0 }
          (er_compose (er_get M.lon { x := 0, y := 0, z := 1 })
            (er_get (-M.lat)
              (er_rot { x := 0, y := 1, z := 0 }
                (er_get M.lon { x := 0, y := 0, z := 1 })))))) = 1 := by
    refine sqNorm4_er_get _ _ ?_
    rw [sqNorm3_er_rot, sqNorm4_er_compose, h1, h2]
    simp [sqNorm3]
  rw [update_er_coefficients_from_eq, sqNorm4_er_compose, sqNorm4_er_compose, h1, h2, h3]
  norm_num

end AnalyticalFluxRopeModel

open AnalyticalFluxRopeModel

/-- C2 counterexample: for the unit coefficient 4-tuples
`a = (3/5, 4/5, 0, 0)` and `b = (3/5, 0, 4/5, 0)` and the vector
`v = (0, 0, 1)`, rotating `v` by `er_compose(a, b)` differs from first
rotating by `b` and then by `a`; so `er_compose(a, b)` does not mean
"apply `b` then `a`". -/
theorem er_compose_order_cex :
    sqNorm4 ({ a := 3/5, b := 4/5, c := 0, d := 0 } : ER4 ℚ) = 1 ∧
    sqNorm4 ({ a := 3/5, b := 0, c := 4/5, d := 0 } : ER4 ℚ) = 1 ∧
    er_rot ({ x := 0, y := 0, z := 1 } : Vec3 ℚ)
        (er_compose { a := 3/5, b := 4/5, c := 0, d := 0 } { a := 3/5, b := 0, c := 4/5, d := 0 }) ≠
      er_rot (er_rot ({ x := 0, y := 0, z := 1 } : Vec3 ℚ) { a := 3/5, b := 0, c := 4/5, d := 0 })
        { a := 3/5, b := 4/5, c := 0, d := 0 } := by
  refine ⟨by norm_num [sqNorm4], by norm_num [sqNorm4], ?_⟩
  norm_num [er_rot, er_compose, Vec3.mk.injEq]

/-- C2 (amended): for all unit rotation-coefficient 4-tuples `a` and `b`
and every 3-vector `v`, rotating `v` by `er_compose(a, b)` equals first
rotating `v` by `a` and then rotating the result by `b` — `compose(a,b)`
means "apply `a` then `b`" (the componentwise rule of `er_compose` is the
quaternion product with the roles of its two arguments swapped, `b ⊗ a`),
and the identity holds for all coefficient 4-tuples, unit or not. -/
theorem er_rot_er_compose_order (a b : ER4 α) (v : Vec3 α)
    (_ha : sqNorm4 a = 1) (_hb : sqNorm4 b = 1) :
    er_rot v (er_compose a b) = er_rot (er_rot v a) b :=
  (er_rot_er_rot v a b).symm

/-- Witness for `er_rot_er_compose_order` at the concrete unit tuples of
the counterexample. -/
theorem er_rot_er_compose_order_witness :
    sqNorm4 ({ a := 3/5, b := 4/5, c := 0, d := 0 } : ER4 ℚ) = 1 ∧
    sqNorm4 ({ a := 3/5, b := 0, c := 4/5, d := 0 } : ER4 ℚ) = 1 ∧
    er_rot ({ x := 0, y := 0, z := 1 } : Vec3 ℚ)
        (er_compose { a := 3/5, b := 4/5, c := 0, d := 0 } { a := 3/5, b := 0, c := 4/5, d := 0 }) =
      er_rot (er_rot ({ x := 0, y := 0, z := 1 } : Vec3 ℚ) { a := 3/5, b := 4/5, c := 0, d := 0 })
        { a := 3/5, b := 0, c := 4/5, d := 0 } :=
  ⟨by norm_num [sqNorm4], by norm_num [sqNorm4],
    er_rot_er_compose_order _ _ _ (by norm_num [sqNorm4]) (by norm_num [sqNorm4])⟩

/-- C3: `magnetic_field` with a collision predicate returns the rotated
field and `true` when the predicate holds at the curvilinear coordinates
and state, and the zero vector with `false` otherwise; without a
predicate it always returns the rotated field and `true`; in the `false`
branch the result does not depend on `h` (`h` is never evaluated). -/
theorem magnetic_field_collision_spec (M : AnalyticalFluxRopeModel α)
    (v : Vec3 α) (coll : Vec3 α → List α → Bool) (h' : Vec3 α → List α → Vec3 α) :
    (magnetic_field M v (some coll) =
      if coll (transform_into_point M v) M.state then
        (er_rot (M.h (transform_into_point M v) M.state) M.er_coeff_from, true)
      else
        (zeroVec, false)) ∧
    magnetic_field M v none =
      (er_rot (M.h (transform_into_point M v) M.state) M.er_coeff_from, true) ∧
    (coll (transform_into_point M v) M.state = false →
      magnetic_field { M with h := h' } v (some coll) = (zeroVec, false)) := by
  refine ⟨rfl, rfl, fun hfalse => ?_⟩
  have hpt : transform_into_point { M with h := h' } v = transform_into_point M v := rfl
  simp [magnetic_field, hpt, hfalse]

/-- Witness for `magnetic_field_collision_spec`: a concrete rational
model and an always-false predicate yield the zero vector and `false`. -/
def Mq : AnalyticalFluxRopeModel ℚ :=
  { t0 := 0, tt := 0, lon := 0, lat := 0, inc := 0
    f := fun v _ => v, f_appr := none, g := fun q _ => q
    jac := fun _ _ => [], h := fun q _ => q, state := []
    er_coeff_from := er_id, er_coeff_into := er_id }

/-- Witness for `magnetic_field_collision_spec`. -/
theorem magnetic_field_collision_spec_witness :
    magnetic_field { Mq with h := fun q _ => q } { x := 1, y := 2, z := 3 }
      (some fun _ _ => false) = (zeroVec, false) :=
  (magnetic_field_collision_spec Mq { x := 1, y := 2, z := 3 }
    (fun _ _ => false) (fun q _ => q)).2.2 rfl

/-- C4: after `update_er_coefficients`, for any orientation angles, the
inverse coefficients are the conjugate of the forward coefficients, and
composing forward and inverse coefficients (in either order) yields the
identity coefficient vector `(1, 0, 0, 0)`. -/
theorem update_er_coefficients_conjugate_identity (M : AnalyticalFluxRopeModel ℝ) :
    (update_er_coefficients M).er_coeff_into =
      er_conj (update_er_coefficients M).er_coeff_from ∧
    er_compose (update_er_coefficients M).er_coeff_from
      (update_er_coefficients M).er_coeff_into = er_id ∧
    er_compose (update_er_coefficients M).er_coeff_into
      (update_er_coefficients M).er_coeff_from = er_id := by
  have hu := sqNorm4_update_er_coefficients_from M
  refine ⟨rfl, ?_, ?_⟩
  · rw [update_er_coefficients_into_eq, er_compose_conj_right, hu]
    rfl
  · rw [update_er_coefficients_into_eq, er_compose_conj_left, hu]
    rfl

/-- C6: with orientation coefficients derived by
`update_er_coefficients` (any longitude/latitude/inclination), any state,
and capabilities `g`/`f` that are true inverses of each other,
`transform_from(transform_into(x))` returns `x` for every inertial point
`x`. -/
theorem round_trip_true_inverse (M : AnalyticalFluxRopeModel ℝ) (x : Vec3 ℝ)
    (_hgf : ∀ q s, M.f (M.g q s) s = q)
    (hfg : ∀ y s, M.g (M.f y s) s = y) :
    transform_from_point (update_er_coefficients M)
      (transform_into_point (update_er_coefficients M) x) = x := by
  have hstate : (update_er_coefficients M).state = M.state := rfl
  have hg : (update_er_coefficients M).g = M.g := rfl
  have hf : (update_er_coefficients M).f = M.f := rfl
  simp only [transform_from_point, transform_into_point, hstate, hg, hf,
    update_er_coefficients_into_eq, hfg]
  rw [er_rot_er_rot, er_compose_conj_left, sqNorm4_update_er_coefficients_from,
    er_rot_scalar]
  ext <;> simp

/-- Witness for `round_trip_true_inverse`: the identity `g`/`f` pair and
a concrete point. -/
theorem round_trip_true_inverse_witness :
    transform_from_point
      (update_er_coefficients
        { t0 := 0, tt := 0, lon := 10, lat := 20, inc := 30
          f := fun v _ => v, f_appr := none, g := fun q _ => q
          jac := fun _ _ => [], h := fun q _ => q, state := []
          er_coeff_from := er_id, er_coeff_into := er_id })
      (transform_into_point
        (update_er_coefficients
          { t0 := 0, tt := 0, lon := 10, lat := 20, inc := 30
            f := fun v _ => v, f_appr := none, g := fun q _ => q
            jac := fun _ _ => [], h := fun q _ => q, state := []
            er_coeff_from := er_id, er_coeff_into := er_id })
        { x := 1, y := 2, z := 3 }) = { x := 1, y := 2, z := 3 } :=
  round_trip_true_inverse _ _ (fun _ _ => rfl) (fun _ _ => rfl)

namespace AnalyticalFluxRopeModel

lemma transform_into_list_eq_map (M : AnalyticalFluxRopeModel α) (l : List (PyInput α)) :
    transform_into_list M l = l.map (transform_into M) := by
  induction l with
  | nil => simp [transform_into_list]
  | cons x xs ih => simp [transform_into_list, ih]

lemma transform_from_list_eq_map (M : AnalyticalFluxRopeModel α) (l : List (PyInput α)) :
    transform_from_list M l = l.map (transform_from M) := by
  induction l with
  | nil => simp [transform_from_list]
  | cons x xs ih => simp [transform_from_list, ih]

lemma transform_into_list_points (M : AnalyticalFluxRopeModel α) (xs : List (Vec3 α)) :
    transform_into_list M (xs.map .ndarray1) =
      xs.map fun p => .vec (transform_into_point M p) := by
  induction xs with
  | nil => simp [transform_into_list]
  | cons x xs ih => simp [transform_into_list, transform_into, ih]

lemma transform_from_list_points (M : AnalyticalFluxRopeModel α) (qs : List (Vec3 α)) :
    transform_from_list M (qs.map .ndarray1) =
      qs.map fun p => .vec (transform_from_point M p) := by
  induction qs with
  | nil => simp [transform_from_list]
  | cons q qs ih => simp [transform_from_list, transform_from, ih]

end AnalyticalFluxRopeModel

/-- C7: for a batch input — a 2-dimensional array or a Python list of
single points — `transform_into` and `transform_from` return the
same-shaped stacked batch obtained by applying the single-point transform
to each element in order. -/
theorem batch_transform_elementwise (M : AnalyticalFluxRopeModel α)
    (xs qs : List (Vec3 α)) :
    transform_into M (.ndarrayN (xs.map .ndarray1)) =
      .stack (xs.map fun p => .vec (transform_into_point M p)) ∧
    transform_into M (.pyList (xs.map .ndarray1)) =
      .stack (xs.map fun p => .vec (transform_into_point M p)) ∧
    transform_from M (.ndarrayN (qs.map .ndarray1)) =
      .stack (qs.map fun p => .vec (transform_from_point M p)) ∧
    transform_from M (.pyList (qs.map .ndarray1)) =
      .stack (qs.map fun p => .vec (transform_from_point M p)) := by
  refine ⟨?_, ?_, ?_, ?_⟩ <;>
    simp [transform_into, transform_from, transform_into_list_points,
      transform_from_list_points]

/-- C8: `transform_into`, `transform_from` and `magnetic_field` leave the
rotation coefficients, the state tuple and the orientation angles of the
model unchanged (their bodies read attributes and never assign to
`self`). -/
theorem calls_preserve_fields (M : AnalyticalFluxRopeModel α) (x q : PyInput α)
    (v : Vec3 α) (coll : Option (Vec3 α → List α → Bool)) :
    ((transform_into_call M x).1.er_coeff_from = M.er_coeff_from ∧
     (transform_into_call M x).1.er_coeff_into = M.er_coeff_into ∧
     (transform_into_call M x).1.state = M.state ∧
     (transform_into_call M x).1.lon = M.lon ∧
     (transform_into_call M x).1.lat = M.lat ∧
     (transform_into_call M x).1.inc = M.inc) ∧
    ((transform_from_call M q).1.er_coeff_from = M.er_coeff_from ∧
     (transform_from_call M q).1.er_coeff_into = M.er_coeff_into ∧
     (transform_from_call M q).1.state = M.state ∧
     (transform_from_call M q).1.lon = M.lon ∧
     (transform_from_call M q).1.lat = M.lat ∧
     (transform_from_call M q).1.inc = M.inc) ∧
    ((magnetic_field_call M v coll).1.er_coeff_from = M.er_coeff_from ∧
     (magnetic_field_call M v coll).1.er_coeff_into = M.er_coeff_into ∧
     (magnetic_field_call M v coll).1.state = M.state ∧
     (magnetic_field_call M v coll).1.lon = M.lon ∧
     (magnetic_field_call M v coll).1.lat = M.lat ∧
     (magnetic_field_call M v coll).1.inc = M.inc) :=
  ⟨⟨rfl, rfl, rfl, rfl, rfl, rfl⟩, ⟨rfl, rfl, rfl, rfl, rfl, rfl⟩,
   ⟨rfl, rfl, rfl, rfl, rfl, rfl⟩⟩

/-- C10: the single-point versus batch dispatch is decided by the input's
type, not its shape — every Python list is recursed element by element
(even a flat 3-element list of scalars standing for one point, whose
image is a stacked array, never the single-point result), while a
1-dimensional numpy array takes the single-point path. -/
theorem dispatch_by_type_not_shape (M : AnalyticalFluxRopeModel α)
    (xs : List (PyInput α)) (v : Vec3 α) (a b c : α) :
    transform_into M (.pyList xs) = .stack (xs.map (transform_into M)) ∧
    transform_from M (.pyList xs) = .stack (xs.map (transform_from M)) ∧
    transform_into M (.ndarray1 v) = .vec (transform_into_point M v) ∧
    transform_from M (.ndarray1 v) = .vec (transform_from_point M v) ∧
    (∀ w : Vec3 α,
      transform_into M (.pyList [.scalar a, .scalar b, .scalar c]) ≠ .vec w) := by
  refine ⟨?_, ?_, ?_, ?_, fun w => ?_⟩ <;>
    simp [transform_into, transform_from, transform_into_list_eq_map,
      transform_from_list_eq_map, transform_into_list, transform_from_list]

/-- C5 counterexample: construction with BOTH `f` and `f0` supplied
succeeds (the analytic `f` branch is taken), refuting the part of the
claim that says construction fails unless exactly one of them is
supplied. -/
theorem init_both_supplied_succeeds_cex :
    ∃ M, init (fun _ q => q) 0 0 0 0 (fun q _ => q) (fun _ _ => []) (fun q _ => q)
      (some fun v _ => v) (some fun v _ => v) = .ok M :=
  ⟨_, rfl⟩

/-- C5 (amended): construction fails with the configuration error exactly
when both `f` and `f0` are absent; whenever at least one of them — or
both — is supplied, construction succeeds. -/
theorem init_error_iff_both_absent
    (ls : (Vec3 ℝ → Vec3 ℝ) → Vec3 ℝ → Vec3 ℝ) (t lo la i : ℝ)
    (g : Vec3 ℝ → List ℝ → Vec3 ℝ) (jac : Vec3 ℝ → List ℝ → List (List ℝ))
    (h : Vec3 ℝ → List ℝ → Vec3 ℝ) :
    (∀ f f0, (∃ e, init ls t lo la i g jac h f f0 = .error e) ↔
      (f = none ∧ f0 = none)) ∧
    init ls t lo la i g jac h none none =
      .error "inverse transform f or its approximation f_appr must be given" ∧
    (∀ f f0, ∃ M, init ls t lo la i g jac h (some f) f0 = .ok M) ∧
    (∀ f0, ∃ M, init ls t lo la i g jac h none (some f0) = .ok M) := by
  refine ⟨?_, rfl, fun f f0 => ?_, fun f0 => ⟨_, rfl⟩⟩
  · intro f f0
    cases f <;> cases f0 <;> simp [init]
  · cases f0 <;> exact ⟨_, rfl⟩

/-- C9: when both `f` and `f0` are supplied, construction succeeds, the
analytic `f` is stored and is what `transform_into` applies, `f0` is not
stored as the approximation (`f_appr = none`), and the construction does
not depend on `f0` at all (so `f0` is never called). -/
theorem init_both_prefers_analytic
    (ls : (Vec3 ℝ → Vec3 ℝ) → Vec3 ℝ → Vec3 ℝ) (t lo la i : ℝ)
    (g : Vec3 ℝ → List ℝ → Vec3 ℝ) (jac : Vec3 ℝ → List ℝ → List (List ℝ))
    (h : Vec3 ℝ → List ℝ → Vec3 ℝ)
    (f f0 f0' : Vec3 ℝ → List ℝ → Vec3 ℝ) (v : Vec3 ℝ) :
    (∃ M, init ls t lo la i g jac h (some f) (some f0) = .ok M ∧
      M.f = f ∧ M.f_appr = none ∧
      transform_into_point M v = f (er_rot v M.er_coeff_into) M.state) ∧
    init ls t lo la i g jac h (some f) (some f0) =
      init ls t lo la i g jac h (some f) (some f0') :=
  ⟨⟨_, rfl, rfl, rfl, rfl⟩, rfl⟩

/-- C1 (code bug): the function the constructor builds when only `f0` is
supplied does not minimise the residual `g(q, state) - x` — it passes
`self.g` itself to `least_squares`, so the solve minimises `‖g(q)‖` and
the target `x` never enters the residual (it only seeds the initial
guess), and the state is not forwarded either.  Concretely, for
`g(q, ·) = q` (whose true inverse is the identity) and `f0(x, ·) = x`,
any solver satisfying the argmin property that `least_squares` is
documented to provide returns the zero of `g` — `(0,0,0)` — at the
target `(1,1,1) = g((1,1,1))`, instead of `(1,1,1)`; so the constructed
`f` applied to `g(q, state)` does not return `q`. -/
theorem numerical_inverse_ignores_target
    (ls : (Vec3 ℝ → Vec3 ℝ) → Vec3 ℝ → Vec3 ℝ)
    (hls : ∀ q : Vec3 ℝ,
      sqNorm3 (ls (fun q => q) { x := 1, y := 1, z := 1 }) ≤ sqNorm3 q) :
    numerical_f ls (fun q _ => q) (fun v _ => v) { x := 1, y := 1, z := 1 } [] =
      { x := 0, y := 0, z := 0 } ∧
    (init ls 0 0 0 0 (fun q _ => q) (fun _ _ => []) (fun q _ => q) none
        (some fun v _ => v)).map
      (fun M => M.f { x := 1, y := 1, z := 1 } M.state) =
      .ok { x := 0, y := 0, z := 0 } ∧
    ({ x := 0, y := 0, z := 0 } : Vec3 ℝ) ≠ { x := 1, y := 1, z := 1 } := by
  set m := ls (fun q => q) ({ x := 1, y := 1, z := 1 } : Vec3 ℝ) with hm
  have hle : m.x ^ 2 + m.y ^ 2 + m.z ^ 2 ≤ 0 := by
    simpa [sqNorm3] using hls { x := 0, y := 0, z := 0 }
  have hx : m.x = 0 := by nlinarith [sq_nonneg m.x, sq_nonneg m.y, sq_nonneg m.z]
  have hy : m.y = 0 := by nlinarith [sq_nonneg m.x, sq_nonneg m.y, sq_nonneg m.z]
  have hz : m.z = 0 := by nlinarith [sq_nonneg m.x, sq_nonneg m.y, sq_nonneg m.z]
  have hm0 : m = ({ x := 0, y := 0, z := 0 } : Vec3 ℝ) := by
    ext <;> assumption
  refine ⟨hm0, congrArg Except.ok hm0, ?_⟩
  intro hcontra
  have hxc := congrArg Vec3.x hcontra
  norm_num at hxc

/-- Witness for `numerical_inverse_ignores_target`: the constant-zero
solver satisfies the argmin hypothesis for the identity residual. -/
theorem numerical_inverse_ignores_target_witness :
    numerical_f (fun _ _ => ({ x := 0, y := 0, z := 0 } : Vec3 ℝ)) (fun q _ => q)
      (fun v _ => v) { x := 1, y := 1, z := 1 } [] = { x := 0, y := 0, z := 0 } ∧
    (init (fun _ _ => ({ x := 0, y := 0, z := 0 } : Vec3 ℝ)) 0 0 0 0 (fun q _ => q)
        (fun _ _ => []) (fun q _ => q) none (some fun v _ => v)).map
      (fun M => M.f { x := 1, y := 1, z := 1 } M.state) =
      .ok { x := 0, y := 0, z := 0 } ∧
    ({ x := 0, y := 0, z := 0 } : Vec3 ℝ) ≠ { x := 1, y := 1, z := 1 } :=
  numerical_inverse_ignores_target _ (fun q => by
    have hq : (0 : ℝ) ≤ q.x ^ 2 + q.y ^ 2 + q.z ^ 2 := by positivity
    simpa [sqNorm3] using hq)
